import Mathlib

/-!
Shallow embedding of the mailbox and dispatch engine of the go-akka
repository (package dispatch, file actor/actor_system_impl.go).

The embedding is sequential: each atomic compare-and-swap of the source
is modelled as succeeding on its first attempt (there is a single
caller), so the CAS retry branches of the source are never taken and
every status operation is a pure function from the old status word to
the new status word together with the returned boolean.

The int32 status word is represented by its unsigned 32-bit pattern, a
natural number below 2 ^ 32; `toSigned` recovers the signed value that
the signed comparisons of the Go source use, and int32 addition and
subtraction are modelled with an explicit reduction modulo 2 ^ 32.
-/

namespace Dispatch

/-- Number of distinct 32-bit words, 2 ^ 32. -/
def WORD32 : Nat := 4294967296

/-- Signed reading of a 32-bit pattern, as Go int32 reads it. -/
def toSigned (w : Nat) : Int :=
  if w < 2147483648 then (w : Int) else (w : Int) - 4294967296

/-- Source constant MailboxStatusOpen = 0. -/
def mailboxStatusOpen : Nat := 0

/-- Source constant MailboxStatusClosed = 1. -/
def mailboxStatusClosed : Nat := 1

/-- Source constant MailboxStatusScheduled = 2. -/
def mailboxStatusScheduled : Nat := 2

/-- Source constant MailboxStatusShouldScheduleMask = 3. -/
def mailboxStatusShouldScheduleMask : Nat := 3

/-- Source constant MailboxStatusShouldNotProcessMask = ^2, the 32-bit pattern of int32 -3. -/
def mailboxStatusShouldNotProcessMask : Nat := 4294967293

/-- Source constant MailboxStatusSuspendMask = ^3, the 32-bit pattern of int32 -4. -/
def mailboxStatusSuspendMask : Nat := 4294967292

/-- Source constant MailboxStatusSuspendUnit = 4. -/
def mailboxStatusSuspendUnit : Nat := 4

/-- Source constant MailboxStatusSuspendAwaitTask = ^4, the 32-bit pattern of int32 -5. -/
def mailboxStatusSuspendAwaitTask : Nat := 4294967291

/-- Go operator a &^ b (AND NOT) on 32-bit patterns with b below 2 ^ 32:
the complement of b as a 32-bit pattern is 2 ^ 32 - 1 - b. -/
def andNot32 (a b : Nat) : Nat := a &&& (WORD32 - 1 - b)

namespace Mailbox

/-- Source Mailbox.shouldProcessMessage: status & MailboxStatusShouldNotProcessMask == 0. -/
def shouldProcessMessage (s : Nat) : Bool :=
  decide (s &&& mailboxStatusShouldNotProcessMask = 0)

/-- Source Mailbox.isSuspended: status & MailboxStatusSuspendMask != 0. -/
def isSuspended (s : Nat) : Bool :=
  decide (s &&& mailboxStatusSuspendMask ≠ 0)

/-- Source Mailbox.isClosed: status == MailboxStatusClosed (exact equality, not a bit test). -/
def isClosed (s : Nat) : Bool :=
  decide (s = mailboxStatusClosed)

/-- Source Mailbox.isScheduled: status & MailboxStatusScheduled != 0. -/
def isScheduled (s : Nat) : Bool :=
  decide (s &&& mailboxStatusScheduled ≠ 0)

/-- Source Mailbox.resume under the sequential CAS semantics: on a closed
mailbox it re-stores Closed and returns false; otherwise it subtracts one
suspend unit when the signed status is at least MailboxStatusSuspendUnit,
installs the new status, and returns whether the new signed status is
below MailboxStatusSuspendUnit (fully resumed). -/
def resume (s : Nat) : Nat × Bool :=
  if s = mailboxStatusClosed then (mailboxStatusClosed, false)
  else
    let next := if 4 ≤ toSigned s then (s + WORD32 - 4) % WORD32 else s
    (next, decide (toSigned next < 4))

/-- Source Mailbox.suspend under the sequential CAS semantics: on a closed
mailbox it re-stores Closed and returns false; otherwise it adds one
suspend unit and returns whether the old signed status was below
MailboxStatusSuspendUnit (became newly suspended). -/
def suspend (s : Nat) : Nat × Bool :=
  if s = mailboxStatusClosed then (mailboxStatusClosed, false)
  else ((s + 4) % WORD32, decide (toSigned s < 4))

/-- Source Mailbox.becomeClosed under the sequential CAS semantics: on a
closed mailbox it re-stores Closed and returns false; otherwise the CAS
to Closed succeeds and it returns true. -/
def becomeClosed (s : Nat) : Nat × Bool :=
  if s = mailboxStatusClosed then (mailboxStatusClosed, false)
  else (mailboxStatusClosed, true)

/-- Source Mailbox.setAsIdle under the sequential CAS semantics: clears the
MailboxStatusScheduled bit (status &^ MailboxStatusScheduled) and returns true. -/
def setAsIdle (s : Nat) : Nat × Bool :=
  (andNot32 s mailboxStatusScheduled, true)

end Mailbox

/-- Helper: a conjunction with a 32-bit mask leaves a word below 2 ^ 32
unchanged as soon as the mask has every bit the word has. -/
theorem land_mask_self (s m : Nat) (hw : s < WORD32)
    (h : ∀ i, i < 32 → s.testBit i = true → m.testBit i = true) : s &&& m = s := by
  apply Nat.eq_of_testBit_eq
  intro i
  rw [Nat.testBit_land]
  by_cases hi : i < 32
  · cases hs : s.testBit i
    · simp
    · simp [h i hi hs]
  · have hsw : s < 2 ^ i := by
      calc s < WORD32 := hw
        _ = 2 ^ 32 := by norm_num [WORD32]
        _ ≤ 2 ^ i := Nat.pow_le_pow_right (by norm_num) (by omega)
    simp [Nat.testBit_lt_two_pow hsw]

/-- Helper: a word divisible by 4 has bit 0 clear. -/
theorem testBit_zero_of_mod4 (s : Nat) (h : s % 4 = 0) : s.testBit 0 = false := by
  have h2 : (s % 2 ^ 2).testBit 0 = (decide (0 < 2) && s.testBit 0) :=
    Nat.testBit_mod_two_pow s 2 0
  rw [show (2 : Nat) ^ 2 = 4 from rfl, h] at h2
  simpa using h2.symm

/-- Helper: a word divisible by 4 has bit 1 clear. -/
theorem testBit_one_of_mod4 (s : Nat) (h : s % 4 = 0) : s.testBit 1 = false := by
  have h2 : (s % 2 ^ 2).testBit 1 = (decide (1 < 2) && s.testBit 1) :=
    Nat.testBit_mod_two_pow s 2 1
  rw [show (2 : Nat) ^ 2 = 4 from rfl, h] at h2
  simpa using h2.symm

/-- Helper: the suspend mask (pattern of int32 -4) keeps a multiple of 4 intact. -/
theorem land_suspendMask_of_mod4 (s : Nat) (h : s % 4 = 0) (hw : s < WORD32) :
    s &&& mailboxStatusSuspendMask = s := by
  apply land_mask_self s _ hw
  intro i hi hs
  have hm : ∀ j, j < 32 → Nat.testBit 4294967292 j = decide (2 ≤ j) := by decide
  rw [show mailboxStatusSuspendMask = 4294967292 from rfl, hm i hi]
  match i with
  | 0 => rw [testBit_zero_of_mod4 s h] at hs; exact absurd hs (by simp)
  | 1 => rw [testBit_one_of_mod4 s h] at hs; exact absurd hs (by simp)
  | j + 2 => simp

/-- Helper: the pattern of int32 -3 (everything but bit 1) keeps a multiple of 4 intact. -/
theorem land_notScheduled_of_mod4 (s : Nat) (h : s % 4 = 0) (hw : s < WORD32) :
    s &&& 4294967293 = s := by
  apply land_mask_self s _ hw
  intro i hi hs
  have hm : ∀ j, j < 32 → Nat.testBit 4294967293 j = decide (j ≠ 1) := by decide
  rw [hm i hi]
  match i with
  | 1 => rw [testBit_one_of_mod4 s h] at hs; exact absurd hs (by simp)
  | 0 => simp
  | j + 2 => simp

/-- Iterated Mailbox.suspend: the status word after n calls, starting from s. -/
def suspendN : Nat → Nat → Nat
  | 0, s => s
  | n + 1, s => (Mailbox.suspend (suspendN n s)).1

/-- Iterated Mailbox.resume: the status word after n calls, starting from s. -/
def resumeN : Nat → Nat → Nat
  | 0, s => s
  | n + 1, s => (Mailbox.resume (resumeN n s)).1

/-- Helper: below the int32 overflow point, k nested suspends from an open
status produce the status word 4 * k. -/
theorem suspendN_closed_form (k : Nat) (hk : k ≤ 536870912) : suspendN k 0 = 4 * k := by
  induction k with
  | zero => rfl
  | succ n ih =>
    have hn : n ≤ 536870912 := by omega
    rw [suspendN, ih hn, Mailbox.suspend]
    rw [if_neg (by simp only [mailboxStatusClosed]; omega)]
    simp only [WORD32]
    omega

/-- Helper: one resume step on a nonzero in-range multiple of 4 subtracts 4. -/
theorem resume_step (j : Nat) (h1 : 1 ≤ j) (h2 : j ≤ 536870911) :
    (Mailbox.resume (4 * j)).1 = 4 * (j - 1) := by
  rw [Mailbox.resume]
  rw [if_neg (by simp only [mailboxStatusClosed]; omega)]
  have hts : toSigned (4 * j) = (4 * j : Nat) := by
    rw [toSigned, if_pos (by omega)]
  simp only [hts]
  rw [if_pos (by push_cast; omega)]
  simp only [WORD32]
  omega

/-- Helper: m resumes from the status word 4 * k, with k in range, reach 4 * (k - m). -/
theorem resumeN_closed_form (m k : Nat) (hm : m ≤ k) (hk : k ≤ 536870911) :
    resumeN m (4 * k) = 4 * (k - m) := by
  induction m with
  | zero => simp [resumeN]
  | succ n ih =>
    have hn : n ≤ k := by omega
    rw [resumeN, ih hn, resume_step (k - n) (by omega) (by omega)]
    congr 1

/-- Helper: resume leaves the open unsuspended status word 0 unchanged. -/
theorem resume_zero : (Mailbox.resume 0).1 = 0 := by decide

/-- Helper: iterated resume from the status word 0 stays at 0. -/
theorem resumeN_zero (j : Nat) : resumeN j 0 = 0 := by
  induction j with
  | zero => rfl
  | succ n ih => rw [resumeN, ih, resume_zero]

/-- C6 (amended: the suspend level lives in the upper 30 bits of an int32, so
the nesting law holds for every k with 1 ≤ k < 2 ^ 29; at k = 2 ^ 29 the
counter overflows into the sign bit and the k-th resume no longer clears
suspension). Starting from an open mailbox with suspend level 0, after
suspend() called k times and resume() called k - 1 times, isSuspended() is
true; after the k-th resume() it is false; and further resume() calls leave
the status word unchanged. -/
theorem suspend_resume_nesting (k : Nat) (h1 : 1 ≤ k) (h2 : k < 536870912) :
    Mailbox.isSuspended (resumeN (k - 1) (suspendN k 0)) = true ∧
    Mailbox.isSuspended (resumeN k (suspendN k 0)) = false ∧
    ∀ j, resumeN j (resumeN k (suspendN k 0)) = resumeN k (suspendN k 0) := by
  rw [suspendN_closed_form k (by omega)]
  rw [resumeN_closed_form (k - 1) k (by omega) (by omega)]
  rw [resumeN_closed_form k k (by omega) (by omega)]
  have h4 : 4 * (k - (k - 1)) = 4 := by omega
  have h0 : 4 * (k - k) = 0 := by omega
  rw [h4, h0]
  refine ⟨by decide, by decide, fun j => ?_⟩
  rw [resumeN_zero]

/-- Witness for C6 at k = 2. -/
theorem suspend_resume_nesting_witness :
    Mailbox.isSuspended (resumeN 1 (suspendN 2 0)) = true ∧
    Mailbox.isSuspended (resumeN 2 (suspendN 2 0)) = false ∧
    ∀ j, resumeN j (resumeN 2 (suspendN 2 0)) = resumeN 2 (suspendN 2 0) := by
  have h := suspend_resume_nesting 2 (by decide) (by decide)
  simpa using h

/-- Helper: a status word fixed by one resume is fixed by any number of resumes. -/
theorem resumeN_fixed (s : Nat) (h : (Mailbox.resume s).1 = s) (m : Nat) :
    resumeN m s = s := by
  induction m with
  | zero => rfl
  | succ n ih => rw [resumeN, ih, h]

/-- C6 counterexample: at k = 2 ^ 29 = 536870912 the int32 suspend counter
overflows into the sign bit, so after k suspends and k resumes from the open
status the mailbox still reports isSuspended() = true, where the claim as
stated demands false after the k-th resume. -/
theorem suspend_resume_nesting_counterexample :
    1 ≤ 536870912 ∧
    Mailbox.isSuspended (resumeN 536870912 (suspendN 536870912 0)) = true := by
  refine ⟨by decide, ?_⟩
  rw [suspendN_closed_form 536870912 (by omega)]
  rw [show 4 * 536870912 = 2147483648 from by norm_num]
  rw [resumeN_fixed 2147483648 (by decide) 536870912]
  decide

/-- C7: becomeClosed() always leaves the status word at exactly
MailboxStatusClosed, returns true exactly when the mailbox was not already
closed, and a second call changes nothing and returns false. -/
theorem becomeClosed_spec (s : Nat) :
    (Mailbox.becomeClosed s).1 = mailboxStatusClosed ∧
    ((Mailbox.becomeClosed s).2 = true ↔ Mailbox.isClosed s = false) ∧
    Mailbox.becomeClosed (Mailbox.becomeClosed s).1 = (mailboxStatusClosed, false) := by
  by_cases h : s = mailboxStatusClosed <;>
    simp [Mailbox.becomeClosed, Mailbox.isClosed, h]

/-- C8: the Closed status word (MailboxStatusClosed = 1) is terminal:
suspend() and resume() return false and leave it at Closed, setAsIdle()
leaves it at Closed, and becomeClosed() leaves it at Closed returning false. -/
theorem closed_is_terminal :
    Mailbox.suspend mailboxStatusClosed = (mailboxStatusClosed, false) ∧
    Mailbox.resume mailboxStatusClosed = (mailboxStatusClosed, false) ∧
    (Mailbox.setAsIdle mailboxStatusClosed).1 = mailboxStatusClosed ∧
    Mailbox.becomeClosed mailboxStatusClosed = (mailboxStatusClosed, false) := by
  refine ⟨by decide, by decide, by decide, by decide⟩

/-- C9: for every status word, setAsIdle() clears exactly the Scheduled bit:
afterwards the Scheduled bit is 0, the Closed bit and the whole suspend
counter are unchanged, and the call reports success. -/
theorem setAsIdle_clears_only_scheduled (s : Nat) :
    (Mailbox.setAsIdle s).1 &&& mailboxStatusScheduled = 0 ∧
    (Mailbox.setAsIdle s).1 &&& mailboxStatusClosed = s &&& mailboxStatusClosed ∧
    (Mailbox.setAsIdle s).1 &&& mailboxStatusSuspendMask = s &&& mailboxStatusSuspendMask ∧
    (Mailbox.setAsIdle s).2 = true := by
  have hmask : andNot32 s mailboxStatusScheduled = s &&& 4294967293 := rfl
  refine ⟨?_, ?_, ?_, rfl⟩
  · show andNot32 s mailboxStatusScheduled &&& mailboxStatusScheduled = 0
    rw [hmask, Nat.land_assoc]
    rw [show (4294967293 : Nat) &&& mailboxStatusScheduled = 0 from by decide]
    simp
  · show andNot32 s mailboxStatusScheduled &&& mailboxStatusClosed = s &&& mailboxStatusClosed
    rw [hmask, Nat.land_assoc]
    rw [show (4294967293 : Nat) &&& mailboxStatusClosed = mailboxStatusClosed from by decide]
  · show andNot32 s mailboxStatusScheduled &&& mailboxStatusSuspendMask
        = s &&& mailboxStatusSuspendMask
    rw [hmask, Nat.land_assoc]
    rw [show (4294967293 : Nat) &&& mailboxStatusSuspendMask = mailboxStatusSuspendMask from
      by decide]

/-- Status-word operations a caller can issue on a mailbox, for the
reachability statement. -/
inductive StatusOp where
  | suspendCall : StatusOp
  | resumeCall : StatusOp
  | closeCall : StatusOp
  | idleCall : StatusOp
deriving DecidableEq, Repr

/-- Effect of one status-word operation on the status (state part only). -/
def applyOp : StatusOp → Nat → Nat
  | StatusOp.suspendCall, s => (Mailbox.suspend s).1
  | StatusOp.resumeCall, s => (Mailbox.resume s).1
  | StatusOp.closeCall, s => (Mailbox.becomeClosed s).1
  | StatusOp.idleCall, s => (Mailbox.setAsIdle s).1

/-- Status word after a sequence of status-word operations. -/
def runOps (ops : List StatusOp) (s : Nat) : Nat :=
  ops.foldl (fun t op => applyOp op t) s

/-- Invariant satisfied by every reachable status word: it is either exactly
the Closed word, or an in-range multiple of the suspend unit. -/
def ReachInv (s : Nat) : Prop := s = 1 ∨ (s % 4 = 0 ∧ s < WORD32)

/-- Helper: every single status-word operation preserves the reachability invariant. -/
theorem applyOp_preserves_inv (op : StatusOp) (s : Nat) (h : ReachInv s) :
    ReachInv (applyOp op s) := by
  rcases h with h1 | ⟨h4, hw⟩
  · subst h1
    left
    cases op <;> decide
  · have hne : s ≠ mailboxStatusClosed := by simp only [mailboxStatusClosed]; omega
    cases op with
    | suspendCall =>
      simp only [applyOp, Mailbox.suspend, if_neg hne]
      right
      simp only [WORD32] at hw ⊢
      omega
    | resumeCall =>
      simp only [applyOp, Mailbox.resume, if_neg hne]
      right
      by_cases hc : 4 ≤ toSigned s <;>
        simp only [hc, if_pos, if_neg, not_false_iff, WORD32] at hw ⊢ <;> omega
    | closeCall =>
      simp only [applyOp, Mailbox.becomeClosed, if_neg hne]
      left
      rfl
    | idleCall =>
      simp only [applyOp, Mailbox.setAsIdle, andNot32]
      right
      rw [show WORD32 - 1 - mailboxStatusScheduled = 4294967293 from rfl]
      rw [land_notScheduled_of_mod4 s h4 hw]
      exact ⟨h4, hw⟩

/-- Helper: every status word reachable from a state satisfying the invariant
satisfies the invariant. -/
theorem runOps_preserves_inv (ops : List StatusOp) (s : Nat) (h : ReachInv s) :
    ReachInv (runOps ops s) := by
  induction ops generalizing s with
  | nil => exact h
  | cons op rest ih => exact ih (applyOp op s) (applyOp_preserves_inv op s h)

/-- Helper: a trailing becomeClosed forces the status word to exactly Closed. -/
theorem runOps_append_close (ops : List StatusOp) (s : Nat) :
    runOps (ops ++ [StatusOp.closeCall]) s = 1 := by
  rw [runOps, List.foldl_append]
  show (Mailbox.becomeClosed (runOps ops s)).1 = 1
  rw [Mailbox.becomeClosed]
  by_cases h : runOps ops s = mailboxStatusClosed
  · rw [if_pos h]
    rfl
  · rw [if_neg h]
    rfl

/-- C10: on every status word reachable from the initial status 0 by
suspend, resume, becomeClosed and setAsIdle calls, a set Closed bit forces
the status to be exactly MailboxStatusClosed, the exact-equality isClosed()
test agrees with testing the Closed bit, and immediately after a
becomeClosed() call both isScheduled() and isSuspended() are false. -/
theorem reachable_closed_bit_exact (ops : List StatusOp) :
    (runOps ops 0 &&& mailboxStatusClosed ≠ 0 → runOps ops 0 = mailboxStatusClosed) ∧
    Mailbox.isClosed (runOps ops 0) = decide (runOps ops 0 &&& mailboxStatusClosed ≠ 0) ∧
    Mailbox.isScheduled (runOps (ops ++ [StatusOp.closeCall]) 0) = false ∧
    Mailbox.isSuspended (runOps (ops ++ [StatusOp.closeCall]) 0) = false := by
  have hinv : ReachInv (runOps ops 0) := runOps_preserves_inv ops 0 (Or.inr (by decide))
  have hclose := runOps_append_close ops 0
  refine ⟨?_, ?_, ?_, ?_⟩
  · intro hbit
    rcases hinv with h1 | ⟨h4, _⟩
    · exact h1
    · exfalso
      apply hbit
      rw [show mailboxStatusClosed = 1 from rfl, Nat.and_one_is_mod]
      omega
  · rcases hinv with h1 | ⟨h4, _⟩
    · rw [h1]
      decide
    · have hz : runOps ops 0 &&& mailboxStatusClosed = 0 := by
        rw [show mailboxStatusClosed = 1 from rfl, Nat.and_one_is_mod]
        omega
      have hne : runOps ops 0 ≠ mailboxStatusClosed := by
        simp [mailboxStatusClosed]
        omega
      simp [Mailbox.isClosed, hne, hz]
  · rw [hclose]; decide
  · rw [hclose]; decide

/-- Witness for C10: after a suspend followed by becomeClosed, the status is
exactly the Closed word and the Closed bit is set. -/
theorem reachable_closed_bit_exact_witness :
    runOps [StatusOp.suspendCall, StatusOp.closeCall] 0 = mailboxStatusClosed ∧
    Mailbox.isScheduled
      (runOps ([StatusOp.suspendCall, StatusOp.closeCall] ++ [StatusOp.closeCall]) 0)
      = false := by
  have h := reachable_closed_bit_exact [StatusOp.suspendCall, StatusOp.closeCall]
  exact ⟨h.1 (by decide), h.2.2.1⟩

/-- Envelopes are opaque to the mailbox; the payload is abstracted to a number. -/
abbrev Envelope := Nat

/-- System messages are opaque to the mailbox as well. -/
abbrev SystemMessage := Nat

/-- Observable mailbox state: the user queue, the system queue, the status
word, and the contents of the dead-letter sink. -/
structure MState where
  userQueue : List Envelope
  systemQueue : List SystemMessage
  status : Nat
  deadLetters : List Envelope
deriving DecidableEq, Repr

/-- Observable calls the mailbox makes on its collaborators during Run. -/
inductive Event where
  | invoke : Envelope → Event
  | invokeSystem : SystemMessage → Event
  | setIdleCall : Event
  | registerCall : Event
deriving DecidableEq, Repr

/-- Behaviour of the owning cell (akka.MessageInvoker, an external
collaborator): applying one envelope yields a new mailbox state (the cell may
enqueue further messages or change the status word) or panics. -/
def Invoker : Type := Envelope → MState → Except Unit MState

/-- Invoker that consumes an envelope with no effect on the mailbox state. -/
def pureInvoke : Invoker := fun _ s => Except.ok s

/-- Modelled from the spec: the user message queue (akka.MessageQueue, whose
implementation is outside the excerpt) is a FIFO; Dequeue is non-blocking and
ok = false means the queue is empty, not an error. -/
def dequeue (s : MState) : Option (Envelope × MState) :=
  match s.userQueue with
  | [] => none
  | e :: rest => some (e, { s with userQueue := rest })

namespace Mailbox

/-- Source Mailbox.processAllSystemMessages (actor_system_impl.go lines
350-353): the body is an empty stub that returns immediately, touching
neither the system queue nor the cell. -/
def processAllSystemMessages (s : MState) : MState × List Event := (s, [])

/-- Source Mailbox.max (actor_system_impl.go lines 457-462). -/
def max (a b : Int) : Int := if a > b then a else b

/-- Source Mailbox.processMailbox (actor_system_impl.go lines 355-375): while
shouldProcessMessage holds, dequeue one envelope (returning when the user
queue is empty), invoke the cell on it, drain system messages (a stub), and
continue only while more than one unit of the budget is left, decrementing
the budget. A panic of the invoker aborts the loop and propagates; the third
component records the escaping panic. -/
def processMailbox (invoke : Invoker) (left : Int) (s : MState) :
    MState × List Event × Bool :=
  if shouldProcessMessage s.status then
    match dequeue s with
    | none => (s, [], false)
    | some (e, s1) =>
      match invoke e s1 with
      | Except.error _ => (s1, [Event.invoke e], true)
      | Except.ok s2 =>
        if h : 1 < left then
          ((processMailbox invoke (left - 1) (processAllSystemMessages s2).1).1,
           Event.invoke e :: (processAllSystemMessages s2).2
             ++ (processMailbox invoke (left - 1) (processAllSystemMessages s2).1).2.1,
           (processMailbox invoke (left - 1) (processAllSystemMessages s2).1).2.2)
        else
          ((processAllSystemMessages s2).1,
           Event.invoke e :: (processAllSystemMessages s2).2, false)
  else (s, [], false)
termination_by left.toNat
decreasing_by omega

/-- Source Mailbox.Run (actor_system_impl.go lines 337-348): a deferred
cleanup region (setAsIdle, then RegisterForExecution on the dispatcher) wraps
the body; when the mailbox is not closed the body drains system messages (a
stub) and processes user messages under the budget max(1, Throughput()). The
deferred calls run on every exit path, also when the invoker panics; the
third component records the escaping panic. -/
def Run (invoke : Invoker) (throughput : Int) (s : MState) :
    MState × List Event × Bool :=
  let body :=
    if isClosed s.status then (s, ([] : List Event), false)
    else
      let pa := processAllSystemMessages s
      let pm := processMailbox invoke (Mailbox.max 1 throughput) pa.1
      (pm.1, pa.2 ++ pm.2.1, pm.2.2)
  ({ body.1 with status := (setAsIdle body.1.status).1 },
    body.2.1 ++ [Event.setIdleCall, Event.registerCall], body.2.2)

end Mailbox

/-- Abstract Enqueue behaviour of the underlying user queue implementation:
the queue is pluggable and a bounded implementation may reject a message. -/
def QueueEnqueue : Type := List Envelope → Envelope → Except String (List Envelope)

/-- Modelled from the spec: the default unbounded FIFO user queue appends the
envelope and never rejects. -/
def fifoEnqueue : QueueEnqueue := fun q e => Except.ok (q ++ [e])

/-- Source Mailbox.Enqueue (actor_system_impl.go lines 312-314): it delegates
to messageQueue.Enqueue unconditionally, with no status check and no
dead-letter redirection. -/
def Enqueue (qE : QueueEnqueue) (s : MState) (e : Envelope) : Except String MState :=
  match qE s.userQueue e with
  | Except.ok q => Except.ok { s with userQueue := q }
  | Except.error msg => Except.error msg

/-- Number of user-message invocations recorded in a trace. -/
def countInvoke (evs : List Event) : Nat :=
  evs.countP fun ev => match ev with
    | Event.invoke _ => true
    | _ => false

/-- Helper: the system-message stub leaves the state unchanged. -/
theorem pasm_fst (s : MState) : (Mailbox.processAllSystemMessages s).1 = s := rfl

/-- Helper: the system-message stub records no events. -/
theorem pasm_snd (s : MState) : (Mailbox.processAllSystemMessages s).2 = [] := rfl

/-- Helper: the user-message loop records only user-message invocations,
never a cleanup or registration event. -/
theorem processMailbox_events_are_invokes (invoke : Invoker) (left : Int) (s : MState) :
    ∀ ev ∈ (Mailbox.processMailbox invoke left s).2.1, ∃ e, ev = Event.invoke e := by
  induction left, s using Mailbox.processMailbox.induct invoke with
  | case1 left s h1 hdeq =>
    rw [Mailbox.processMailbox]
    simp [h1, hdeq]
  | case2 left s h1 e s1 hdeq a hinv =>
    rw [Mailbox.processMailbox]
    simp [h1, hdeq, hinv]
  | case3 left s h1 e s1 hdeq s2 hinv hlt ih =>
    rw [Mailbox.processMailbox]
    simp only [h1, if_true, hdeq, hinv, dif_pos hlt, pasm_fst, pasm_snd,
      List.nil_append]
    simp only [pasm_fst] at ih
    exact List.forall_mem_cons.mpr ⟨⟨e, rfl⟩, ih⟩
  | case4 left s h1 e s1 hdeq s2 hinv hlt =>
    rw [Mailbox.processMailbox]
    simp only [h1, if_true, hdeq, hinv, dif_neg hlt, pasm_fst, pasm_snd]
    exact List.forall_mem_cons.mpr ⟨⟨e, rfl⟩, by simp⟩
  | case5 left s h1 =>
    rw [Mailbox.processMailbox]
    simp [h1]

/-- Helper: the user-message loop invokes at most max(1, budget) user messages. -/
theorem processMailbox_count_le (invoke : Invoker) (left : Int) (s : MState) :
    countInvoke (Mailbox.processMailbox invoke left s).2.1 ≤ max 1 left.toNat := by
  induction left, s using Mailbox.processMailbox.induct invoke with
  | case1 left s h1 hdeq =>
    rw [Mailbox.processMailbox]
    simp [h1, hdeq, countInvoke]
  | case2 left s h1 e s1 hdeq a hinv =>
    rw [Mailbox.processMailbox]
    simp [h1, hdeq, hinv, countInvoke]
  | case3 left s h1 e s1 hdeq s2 hinv hlt ih =>
    rw [Mailbox.processMailbox]
    simp only [h1, if_true, hdeq, hinv, dif_pos hlt, pasm_fst, pasm_snd]
    simp only [pasm_fst] at ih
    simp only [countInvoke, List.countP_cons, List.countP_append, List.countP_nil,
      List.nil_append, if_true] at ih ⊢
    omega
  | case4 left s h1 e s1 hdeq s2 hinv hlt =>
    rw [Mailbox.processMailbox]
    simp only [h1, if_true, hdeq, hinv, dif_neg hlt, pasm_fst, pasm_snd]
    simp [countInvoke]
  | case5 left s h1 =>
    rw [Mailbox.processMailbox]
    simp [h1, countInvoke]

/-- Helper: with shouldProcessMessage false the loop does nothing. -/
theorem processMailbox_not_should (invoke : Invoker) (left : Int) (s : MState)
    (h : ¬Mailbox.shouldProcessMessage s.status = true) :
    Mailbox.processMailbox invoke left s = (s, [], false) := by
  rw [Mailbox.processMailbox]
  simp [h]

/-- Helper: with an empty user queue the loop does nothing. -/
theorem processMailbox_empty_queue (invoke : Invoker) (left : Int) (s : MState)
    (h : s.userQueue = []) :
    Mailbox.processMailbox invoke left s = (s, [], false) := by
  have hdeq : dequeue s = none := by
    rw [dequeue, h]
  rw [Mailbox.processMailbox]
  by_cases hs : Mailbox.shouldProcessMessage s.status = true <;> simp [hs, hdeq]

/-- Helper: the budget max(1, Throughput()) read as a natural number. -/
theorem maxGo_one_toNat (t : Int) : (Mailbox.max 1 t).toNat = max 1 t.toNat := by
  rw [Mailbox.max]
  split <;> omega

/-- Helper: setAsIdle leaves the Scheduled bit cleared. -/
theorem setAsIdle_scheduled_cleared (s : Nat) :
    (Mailbox.setAsIdle s).1 &&& mailboxStatusScheduled = 0 := by
  show andNot32 s mailboxStatusScheduled &&& mailboxStatusScheduled = 0
  rw [show andNot32 s mailboxStatusScheduled = s &&& 4294967293 from rfl, Nat.land_assoc]
  rw [show (4294967293 : Nat) &&& mailboxStatusScheduled = 0 from by decide]
  simp

/-- Helper: after setAsIdle the mailbox reports not scheduled. -/
theorem isScheduled_setAsIdle (s : Nat) :
    Mailbox.isScheduled (Mailbox.setAsIdle s).1 = false := by
  rw [Mailbox.isScheduled, setAsIdle_scheduled_cleared]
  simp

/-- Helper: the final status word of Run is the result of a setAsIdle call. -/
theorem run_isScheduled_false (invoke : Invoker) (t : Int) (s : MState) :
    Mailbox.isScheduled (Mailbox.Run invoke t s).1.status = false := by
  have h : ∃ x, (Mailbox.Run invoke t s).1.status = (Mailbox.setAsIdle x).1 := ⟨_, rfl⟩
  rcases h with ⟨x, hx⟩
  rw [hx]
  exact isScheduled_setAsIdle x

/-- C1 evaluation at the failing input: with one pending system message and
one queued user message on an open mailbox, Run invokes the user message,
never invokes the cell for the system message, and leaves the system message
queued — processAllSystemMessages is an empty stub, so the system queue is
not drained before (or after) user processing. -/
theorem run_ignores_pending_system_message :
    Mailbox.Run pureInvoke 5 ⟨[7], [3], 0, []⟩
      = (⟨[], [3], 0, []⟩,
         [Event.invoke 7, Event.setIdleCall, Event.registerCall], false) := by
  have hpm : Mailbox.processMailbox pureInvoke (Mailbox.max 1 5) ⟨[7], [3], 0, []⟩
      = (⟨[], [3], 0, []⟩, [Event.invoke 7], false) := by
    rw [show Mailbox.max 1 5 = 5 from rfl]
    rw [Mailbox.processMailbox]
    simp only [Mailbox.shouldProcessMessage, dequeue, pureInvoke]
    rw [Mailbox.processMailbox]
    simp [Mailbox.shouldProcessMessage, dequeue, pasm_fst, pasm_snd]
  simp [Mailbox.Run, pasm_fst, pasm_snd, hpm, Mailbox.isClosed, mailboxStatusClosed,
    Mailbox.setAsIdle, andNot32, WORD32, mailboxStatusScheduled]

/-- C2 counterexample: on a closed mailbox (status word 1) with the default
unbounded FIFO user queue, Enqueue appends the envelope to the user queue and
leaves the dead-letter sink empty, returning success — there is no
dead-letter redirection. -/
theorem enqueue_on_closed_counterexample :
    Mailbox.isClosed ((⟨[], [], 1, []⟩ : MState).status) = true ∧
    Enqueue fifoEnqueue ⟨[], [], 1, []⟩ 5
      = Except.ok ⟨[5], [], 1, []⟩ := by
  refine ⟨by decide, rfl⟩

/-- C2 (amended: Mailbox.Enqueue delegates to the underlying user queue
unconditionally — even on a closed mailbox the envelope goes to the user
queue, not to the dead-letter sink — and it fails exactly when the
underlying queue implementation rejects the message). -/
theorem enqueue_delegates_unconditionally (qE : QueueEnqueue) (s : MState) (e : Envelope) :
    (∀ msg, (Enqueue qE s e = Except.error msg ↔ qE s.userQueue e = Except.error msg)) ∧
    (∀ q, qE s.userQueue e = Except.ok q →
      Enqueue qE s e = Except.ok { s with userQueue := q }) := by
  cases h : qE s.userQueue e <;> simp [Enqueue, h]

/-- Witness for C2 on a concrete closed mailbox with the FIFO queue. -/
theorem enqueue_delegates_unconditionally_witness :
    Enqueue fifoEnqueue ⟨[], [7], 1, [2]⟩ 5
      = Except.ok (⟨[5], [7], 1, [2]⟩ : MState) :=
  (enqueue_delegates_unconditionally fifoEnqueue ⟨[], [7], 1, [2]⟩ 5).2 [5] rfl

/-- C3 counterexample: Run on a closed mailbox with queued messages leaves
the user queue, the system queue and the dead-letter sink untouched (nothing
is drained) and does issue a RegisterForExecution request to the dispatcher. -/
theorem run_on_closed_counterexample :
    (Mailbox.Run pureInvoke 5 ⟨[7], [3], 1, []⟩).1.userQueue = [7] ∧
    (Mailbox.Run pureInvoke 5 ⟨[7], [3], 1, []⟩).1.systemQueue = [3] ∧
    (Mailbox.Run pureInvoke 5 ⟨[7], [3], 1, []⟩).1.deadLetters = [] ∧
    Event.registerCall ∈ (Mailbox.Run pureInvoke 5 ⟨[7], [3], 1, []⟩).2.1 := by
  refine ⟨by decide, by decide, by decide, by decide⟩

/-- C3 (amended: when Run is invoked on a closed mailbox it performs no
message processing and drains nothing — both queues and the dead-letter sink
are left as they were — and then, as on every exit path, it clears the
Scheduled bit and issues a registration request to the dispatcher). -/
theorem run_on_closed_skips_processing (invoke : Invoker) (t : Int) (s : MState)
    (hc : Mailbox.isClosed s.status = true) :
    Mailbox.Run invoke t s
      = ({ s with status := (Mailbox.setAsIdle s.status).1 },
         [Event.setIdleCall, Event.registerCall], false) := by
  simp [Mailbox.Run, hc]

/-- Witness for C3 (amended) on a concrete closed mailbox. -/
theorem run_on_closed_skips_processing_witness :
    Mailbox.Run pureInvoke 3 ⟨[9], [2], 1, [5]⟩
      = ({ userQueue := [9], systemQueue := [2],
           status := (Mailbox.setAsIdle 1).1, deadLetters := [5] },
         [Event.setIdleCall, Event.registerCall], false) :=
  run_on_closed_skips_processing pureInvoke 3 ⟨[9], [2], 1, [5]⟩ (by decide)

/-- C4: every Run invocation dequeues and invokes at most max(1, t) user
messages for throughput t (so at most one when t ≤ 0), invokes none when
shouldProcessMessage is false at entry, and invokes none when the user queue
starts empty. -/
theorem run_user_message_bound (invoke : Invoker) (t : Int) (s : MState) :
    countInvoke (Mailbox.Run invoke t s).2.1 ≤ max 1 t.toNat ∧
    (t ≤ 0 → max 1 t.toNat = 1) ∧
    (Mailbox.shouldProcessMessage s.status = false →
      countInvoke (Mailbox.Run invoke t s).2.1 = 0) ∧
    (s.userQueue = [] → countInvoke (Mailbox.Run invoke t s).2.1 = 0) := by
  have htail : countInvoke [Event.setIdleCall, Event.registerCall] = 0 := rfl
  have happ : ∀ a b : List Event, countInvoke (a ++ b) = countInvoke a + countInvoke b := by
    intro a b
    simp [countInvoke, List.countP_append]
  by_cases hc : Mailbox.isClosed s.status = true
  · have hrun : (Mailbox.Run invoke t s).2.1 = [Event.setIdleCall, Event.registerCall] := by
      simp [Mailbox.Run, hc]
    rw [hrun, htail]
    exact ⟨Nat.zero_le _, by omega, fun _ => rfl, fun _ => rfl⟩
  · have hrun : (Mailbox.Run invoke t s).2.1
        = (Mailbox.processMailbox invoke (Mailbox.max 1 t) s).2.1
          ++ [Event.setIdleCall, Event.registerCall] := by
      simp [Mailbox.Run, hc, pasm_fst, pasm_snd]
    rw [hrun, happ, htail]
    have hcount := processMailbox_count_le invoke (Mailbox.max 1 t) s
    rw [maxGo_one_toNat] at hcount
    refine ⟨by omega, by omega, ?_, ?_⟩
    · intro hsp
      rw [processMailbox_not_should invoke (Mailbox.max 1 t) s (by simp [hsp])]
      rfl
    · intro hq
      rw [processMailbox_empty_queue invoke (Mailbox.max 1 t) s hq]
      rfl

/-- Witness for C4 at throughput 0 on a suspended mailbox with an empty queue. -/
theorem run_user_message_bound_witness :
    countInvoke (Mailbox.Run pureInvoke 0 ⟨[], [], 4, []⟩).2.1 ≤ max 1 (Int.toNat 0) ∧
    max 1 (Int.toNat 0) = 1 ∧
    countInvoke (Mailbox.Run pureInvoke 0 ⟨[], [], 4, []⟩).2.1 = 0 := by
  have h := run_user_message_bound pureInvoke 0 ⟨[], [], 4, []⟩
  exact ⟨h.1, h.2.1 (by decide), h.2.2.1 (by decide)⟩

/-- C5: on every exit path of Run — the closed short-circuit, a normal batch,
and an invocation that signals failure or panics — the recorded trace ends
with exactly one setAsIdle call followed by exactly one RegisterForExecution
call, in that order, and the final status word has the Scheduled bit cleared. -/
theorem run_cleanup_on_every_exit (invoke : Invoker) (t : Int) (s : MState) :
    ∃ evs, (Mailbox.Run invoke t s).2.1 = evs ++ [Event.setIdleCall, Event.registerCall] ∧
      Event.setIdleCall ∉ evs ∧ Event.registerCall ∉ evs ∧
      Mailbox.isScheduled (Mailbox.Run invoke t s).1.status = false := by
  by_cases hc : Mailbox.isClosed s.status = true
  · refine ⟨[], ?_, by simp, by simp, run_isScheduled_false invoke t s⟩
    simp [Mailbox.Run, hc]
  · refine ⟨(Mailbox.processMailbox invoke (Mailbox.max 1 t) s).2.1, ?_, ?_, ?_,
      run_isScheduled_false invoke t s⟩
    · simp [Mailbox.Run, hc, pasm_fst, pasm_snd]
    · intro hmem
      rcases processMailbox_events_are_invokes invoke (Mailbox.max 1 t) s
        Event.setIdleCall hmem with ⟨e, he⟩
      exact absurd he (by simp)
    · intro hmem
      rcases processMailbox_events_are_invokes invoke (Mailbox.max 1 t) s
        Event.registerCall hmem with ⟨e, he⟩
      exact absurd he (by simp)

end Dispatch
